import Mathlib

/-!
# Verification of the HOLOS classical-dynamics kernel

Shallow embedding of `src/mechanics/classical/dynamics.c` (the only
implemented part of the HOLOS Newtonian dynamics engine) together with
theorems settling the specification claims about it.

The C code works on `gsl_vector` values holding `double` components; the
claims speak about exact (real) arithmetic, so components are embedded as
rationals (`ℚ`), an exact, executable field.  A `gsl_vector` of size `n`
is a function `Fin n → ℚ`; the destructive GSL primitives
(`gsl_vector_scale`, `gsl_vector_add`, `gsl_blas_ddot`) become pure
functions, and each C routine that mutates its arguments returns the new
values instead.
-/

namespace Holos

/-- A `gsl_vector` of size `n` with exact components. -/
def Vec (n : ℕ) : Type := Fin n → ℚ

/-- `gsl_vector_scale(v, c)`: multiply every component of `v` by `c`. -/
def gsl_vector_scale {n : ℕ} (v : Vec n) (c : ℚ) : Vec n :=
  fun i => v i * c

/-- `gsl_vector_add(dst, src)`: add `src` componentwise into `dst`. -/
def gsl_vector_add {n : ℕ} (dst src : Vec n) : Vec n :=
  fun i => dst i + src i

/-- `gsl_blas_ddot(a, b)`: Euclidean dot product of `a` and `b`. -/
def gsl_blas_ddot {n : ℕ} (a b : Vec n) : ℚ :=
  ∑ i, a i * b i

/-- The all-zero vector (a particle with no velocity / no forces). -/
def vec_zero (n : ℕ) : Vec n := fun _ => 0

/-- `compute_force` from dynamics.c: `F = m * a`.
The C body copies `acc` into `force` and scales it by `mass`. -/
def compute_force {n : ℕ} (mass : ℚ) (acc : Vec n) : Vec n :=
  gsl_vector_scale acc mass

/-- `compute_acceleration` from dynamics.c: `a = F / m`.
The C body copies `force` into `acc` and scales it by `1.0 / mass`. -/
def compute_acceleration {n : ℕ} (force : Vec n) (mass : ℚ) : Vec n :=
  gsl_vector_scale force (1 / mass)

/-- `euler_step` from dynamics.c.  The C body first updates the velocity
in place (`v = v + a*dt`) and then updates the position with the already
updated velocity (`x = x + v*dt`); the returned pair is
(new position, new velocity). -/
def euler_step {n : ℕ} (pos vel : Vec n) (acc : Vec n) (dt : ℚ) :
    Vec n × Vec n :=
  let tmp := gsl_vector_scale acc dt
  let vel' := gsl_vector_add vel tmp
  let tmp2 := gsl_vector_scale vel' dt
  let pos' := gsl_vector_add pos tmp2
  (pos', vel')

/-- `kinetic_energy` from dynamics.c: `0.5 * mass * ddot(vel, vel)`. -/
def kinetic_energy {n : ℕ} (mass : ℚ) (vel : Vec n) : ℚ :=
  0.5 * mass * gsl_blas_ddot vel vel

/-- `momentum` from dynamics.c: copy `vel` into `p` and scale by `mass`. -/
def momentum {n : ℕ} (mass : ℚ) (vel : Vec n) : Vec n :=
  gsl_vector_scale vel mass

/-- `verlet_step` from dynamics.c, transcribed operation by operation.
The C body builds `tmp = acc`, scales it by `0.5*dt*dt`, adds `vel` into
it, scales the sum by `dt`, and adds the result into `pos`; then it sets
`vel = vel + acc*dt`.  The returned pair is (new position, new velocity). -/
def verlet_step {n : ℕ} (pos vel : Vec n) (acc : Vec n) (dt : ℚ) :
    Vec n × Vec n :=
  let tmp := gsl_vector_scale acc (0.5 * dt * dt)
  let tmp2 := gsl_vector_add tmp vel
  let tmp3 := gsl_vector_scale tmp2 dt
  let pos' := gsl_vector_add pos tmp3
  let tmp4 := gsl_vector_scale acc dt
  let vel' := gsl_vector_add vel tmp4
  (pos', vel')

/-- The integrator enumeration from `include/core/phys/mech/classical/dynamics.h`. -/
inductive dyn_integrator_t
  | DYN_INT_EULER
  | DYN_INT_VERLET
  | DYN_INT_LEAPFROG
  | DYN_INT_RK4
  | DYN_INT_GSL_ODE
deriving DecidableEq

/-- The fields of `dyn_particle_t` relevant to integration
(mass, position, velocity, accumulated force, fixed flag). -/
structure dyn_particle_t where
  mass : ℚ
  pos : Vec 3
  vel : Vec 3
  force : Vec 3
  fixed : Bool

/-- The fields of `dyn_system_t` relevant to integration. -/
structure dyn_system_t where
  particles : List dyn_particle_t
  t : ℚ
  dt_last : ℚ
  step_count : ℕ

/-- Error kinds of §7 of the specification (only the one needed here). -/
inductive dyn_error
  | InvalidArgument
deriving DecidableEq

/-- Modelled from the spec: the per-particle transition of one integration
step.  `dyn_system_step` is declared in
`include/core/phys/mech/classical/dynamics.h` but has no implementation
under `src`, so its behaviour is taken from §4.3 of the specification.
The ForceModel is abstracted as an acceleration field `aF` giving the
per-unit-mass force `F/m` at a position (re-invoked at intermediate
positions exactly where §4.3 demands a force recomputation), and the
external-ODE delegate as a supplied solver `odeSolver`.  Fixed particles
are skipped (§4.3: position/velocity untouched). -/
def spec_step_particle (aF : Vec 3 → Vec 3)
    (odeSolver : (Vec 3 → Vec 3) → Vec 3 × Vec 3 → ℚ → Vec 3 × Vec 3)
    (dt : ℚ) (integ : dyn_integrator_t) (p : dyn_particle_t) :
    dyn_particle_t :=
  if p.fixed then p else
  match integ with
  | .DYN_INT_EULER =>
      let a := aF p.pos
      let vel' := fun i => p.vel i + a i * dt
      let pos' := fun i => p.pos i + vel' i * dt
      { p with pos := pos', vel := vel' }
  | .DYN_INT_VERLET =>
      let a := aF p.pos
      let pos' := fun i => p.pos i + p.vel i * dt + 0.5 * a i * dt * dt
      let a' := aF pos'
      let vel' := fun i => p.vel i + 0.5 * (a i + a' i) * dt
      { p with pos := pos', vel := vel' }
  | .DYN_INT_LEAPFROG =>
      let a := aF p.pos
      let vh := fun i => p.vel i + 0.5 * a i * dt
      let pos' := fun i => p.pos i + vh i * dt
      let a' := aF pos'
      let vel' := fun i => vh i + 0.5 * a' i * dt
      { p with pos := pos', vel := vel' }
  | .DYN_INT_RK4 =>
      let k1x := p.vel
      let k1v := aF p.pos
      let k2x := fun i => p.vel i + 0.5 * dt * k1v i
      let k2v := aF (fun i => p.pos i + 0.5 * dt * k1x i)
      let k3x := fun i => p.vel i + 0.5 * dt * k2v i
      let k3v := aF (fun i => p.pos i + 0.5 * dt * k2x i)
      let k4x := fun i => p.vel i + dt * k3v i
      let k4v := aF (fun i => p.pos i + dt * k3x i)
      let pos' := fun i =>
        p.pos i + dt / 6 * (k1x i + 2 * k2x i + 2 * k3x i + k4x i)
      let vel' := fun i =>
        p.vel i + dt / 6 * (k1v i + 2 * k2v i + 2 * k3v i + k4v i)
      { p with pos := pos', vel := vel' }
  | .DYN_INT_GSL_ODE =>
      let s := odeSolver aF (p.pos, p.vel) dt
      { p with pos := s.1, vel := s.2 }

/-- Modelled from the spec: `dyn_system_step` (declared in
`include/core/phys/mech/classical/dynamics.h`, no implementation under
`src`).  Per §4.3 it signals an error if `dt <= 0` or if a particle has
non-positive mass; otherwise it advances every particle by the chosen
scheme, advances `simulationTime`, records `lastStepSize` and increments
`stepCount`. -/
def dyn_system_step (aF : Vec 3 → Vec 3)
    (odeSolver : (Vec 3 → Vec 3) → Vec 3 × Vec 3 → ℚ → Vec 3 × Vec 3)
    (sys : dyn_system_t) (dt : ℚ) (integ : dyn_integrator_t) :
    Except dyn_error dyn_system_t :=
  if dt ≤ 0 then .error .InvalidArgument
  else if sys.particles.any (fun p => decide (p.mass ≤ 0)) then
    .error .InvalidArgument
  else .ok
    { particles := sys.particles.map (spec_step_particle aF odeSolver dt integ)
      t := sys.t + dt
      dt_last := dt
      step_count := sys.step_count + 1 }

/-- Iterate `euler_step` `k` times with a fixed acceleration vector. -/
def euler_steps {n : ℕ} : ℕ → Vec n × Vec n → Vec n → ℚ → Vec n × Vec n
  | 0, pv, _, _ => pv
  | k + 1, pv, acc, dt =>
      let pv' := euler_steps k pv acc dt
      euler_step pv'.1 pv'.2 acc dt

/-- Iterate `verlet_step` `k` times with a fixed acceleration vector. -/
def verlet_steps {n : ℕ} : ℕ → Vec n × Vec n → Vec n → ℚ → Vec n × Vec n
  | 0, pv, _, _ => pv
  | k + 1, pv, acc, dt =>
      let pv' := verlet_steps k pv acc dt
      verlet_step pv'.1 pv'.2 acc dt

/-!
## Helper lemmas
-/

/-- A stationary, force-free particle is a fixed point of `euler_step`. -/
theorem euler_step_stationary {n : ℕ} (pos : Vec n) (dt : ℚ) :
    euler_step pos (vec_zero n) (vec_zero n) dt = (pos, vec_zero n) := by
  rw [Prod.ext_iff]
  constructor <;> funext i <;>
    simp only [euler_step, gsl_vector_scale, gsl_vector_add, vec_zero] <;> ring

/-- A stationary, force-free particle is a fixed point of `verlet_step`. -/
theorem verlet_step_stationary {n : ℕ} (pos : Vec n) (dt : ℚ) :
    verlet_step pos (vec_zero n) (vec_zero n) dt = (pos, vec_zero n) := by
  rw [Prod.ext_iff]
  constructor <;> funext i <;>
    simp only [verlet_step, gsl_vector_scale, gsl_vector_add, vec_zero] <;> ring

/-!
## Claim theorems
-/

/-- C1: the claim states that one Verlet step updates the position to
`x + v·dt + 0.5·a·dt²`.  The code does not: it scales the acceleration
term by `0.5·dt·dt` and then scales the whole sum by `dt` again, so the
acceleration contribution is `0.5·a·dt³`.  At `x = 0`, `v = 0`, `a = 1`,
`dt = 2` (one dimension) the code produces position `4`, while the
claimed formula gives `0 + 0·2 + 0.5·1·2² = 2`.  This contradicts the
comment `x = x + v*dt + 0.5*a*dt^2` inside `verlet_step` itself. -/
theorem verlet_position_update_scales_by_dt_cubed :
    (verlet_step (n := 1) (fun _ => 0) (fun _ => 0) (fun _ => 1) 2).1 0 = 4 ∧
    (4 : ℚ) ≠ 0 + 0 * 2 + 0.5 * 1 * 2 ^ 2 := by
  constructor
  · norm_num [verlet_step, gsl_vector_scale, gsl_vector_add]
  · norm_num

/-- C2 counterexample: the claim states that after the position update
the forces are recomputed at the new position and the velocity is
finalized as `v + 0.5·((F_old + F_new)/m)·dt`.  Refuted concretely: take
one dimension, mass `1`, force field `F(x) = x`, start at `x = 0` (so
the acceleration passed to `verlet_step` is `F(0)/1 = 0`), `v = 1`,
`dt = 1`.  The code's final velocity is `1`, while the claimed formula —
with `F_new` evaluated at the code's own new position — gives
`1 + 0.5·((0 + x_new)/1)·1 = 1.5`. -/
theorem verlet_velocity_ignores_recomputed_force :
    (verlet_step (n := 1) (fun _ => 0) (fun _ => 1) (fun _ => 0) 1).2 0 ≠
      1 + 0.5 * ((0 + (verlet_step (n := 1) (fun _ => 0) (fun _ => 1) (fun _ => 0) 1).1 0) / 1) * 1 := by
  norm_num [verlet_step, gsl_vector_scale, gsl_vector_add]

/-- C2 amended: in a Verlet step the velocity is finalized as
`v + a·dt` using the acceleration passed in; `verlet_step` never
recomputes forces (it receives a single `const` acceleration vector and
reads nothing else). -/
theorem verlet_velocity_uses_old_acceleration {n : ℕ} (pos vel acc : Vec n) (dt : ℚ) :
    (verlet_step pos vel acc dt).2 = fun i => vel i + acc i * dt := by
  funext i
  simp only [verlet_step, gsl_vector_scale, gsl_vector_add]

/-- C3: one Euler step first updates the velocity to `v' = v + a·dt` and
then updates the position with the already-updated velocity,
`x' = x + v'·dt = x + v·dt + a·dt²`. -/
theorem euler_step_updates_velocity_then_position {n : ℕ} (pos vel acc : Vec n) (dt : ℚ) :
    (euler_step pos vel acc dt).2 = (fun i => vel i + acc i * dt) ∧
    (euler_step pos vel acc dt).1 = (fun i => pos i + (vel i + acc i * dt) * dt) ∧
    (euler_step pos vel acc dt).1 = (fun i => pos i + vel i * dt + acc i * dt ^ 2) := by
  refine ⟨rfl, rfl, ?_⟩
  funext i
  simp only [euler_step, gsl_vector_scale, gsl_vector_add]
  ring

/-- C4: for two particles with positive masses acted on by equal and
opposite forces (`a1 = F/m1`, `a2 = -F/m2`, via `compute_acceleration`),
one step of either scheme leaves the total momentum
`m1·v1 + m2·v2` (computed by `momentum` and summed with
`gsl_vector_add`) exactly unchanged. -/
theorem pair_step_conserves_total_momentum {n : ℕ} (m1 m2 : ℚ)
    (h1 : 0 < m1) (h2 : 0 < m2) (F p1 p2 v1 v2 : Vec n) (dt : ℚ) :
    gsl_vector_add (momentum m1 (euler_step p1 v1 (compute_acceleration F m1) dt).2)
        (momentum m2 (euler_step p2 v2 (compute_acceleration (fun i => -F i) m2) dt).2)
      = gsl_vector_add (momentum m1 v1) (momentum m2 v2) ∧
    gsl_vector_add (momentum m1 (verlet_step p1 v1 (compute_acceleration F m1) dt).2)
        (momentum m2 (verlet_step p2 v2 (compute_acceleration (fun i => -F i) m2) dt).2)
      = gsl_vector_add (momentum m1 v1) (momentum m2 v2) := by
  constructor <;> funext i <;>
    simp only [momentum, gsl_vector_add, gsl_vector_scale, euler_step, verlet_step,
      compute_acceleration] <;>
    field_simp <;> ring

/-- Witness for C4: both conservation identities at masses `1, 1`,
force `(1)`, zero initial velocities, `dt = 1`, in one dimension. -/
theorem pair_step_conserves_total_momentum_witness :
    gsl_vector_add (momentum 1 (euler_step (n := 1) (fun _ => 0) (fun _ => 0) (compute_acceleration (fun _ => 1) 1) 1).2)
        (momentum 1 (euler_step (n := 1) (fun _ => 0) (fun _ => 0) (compute_acceleration (fun _ => -1) 1) 1).2)
      = gsl_vector_add (momentum 1 (fun _ => 0)) (momentum 1 (fun _ => 0)) ∧
    gsl_vector_add (momentum 1 (verlet_step (n := 1) (fun _ => 0) (fun _ => 0) (compute_acceleration (fun _ => 1) 1) 1).2)
        (momentum 1 (verlet_step (n := 1) (fun _ => 0) (fun _ => 0) (compute_acceleration (fun _ => -1) 1) 1).2)
      = gsl_vector_add (momentum 1 (fun _ => 0)) (momentum 1 (fun _ => 0)) :=
  pair_step_conserves_total_momentum 1 1 one_pos one_pos (fun _ => 1)
    (fun _ => 0) (fun _ => 0) (fun _ => 0) (fun _ => 0) 1

/-- C5: a particle with zero velocity and zero acceleration stays at its
initial position, with zero velocity, after any number of steps of
either scheme, for any `dt`. -/
theorem stationary_particle_remains_at_rest {n : ℕ} (pos : Vec n) (dt : ℚ) (k : ℕ) :
    euler_steps k (pos, vec_zero n) (vec_zero n) dt = (pos, vec_zero n) ∧
    verlet_steps k (pos, vec_zero n) (vec_zero n) dt = (pos, vec_zero n) := by
  induction k with
  | zero => exact ⟨rfl, rfl⟩
  | succ k ih =>
      refine ⟨?_, ?_⟩
      · show euler_step (euler_steps k (pos, vec_zero n) (vec_zero n) dt).1
          (euler_steps k (pos, vec_zero n) (vec_zero n) dt).2 (vec_zero n) dt = _
        rw [ih.1]
        exact euler_step_stationary pos dt
      · show verlet_step (verlet_steps k (pos, vec_zero n) (vec_zero n) dt).1
          (verlet_steps k (pos, vec_zero n) (vec_zero n) dt).2 (vec_zero n) dt = _
        rw [ih.2]
        exact verlet_step_stationary pos dt

/-- C6: `kinetic_energy` returns exactly `0.5·m·|v|²`, one half of the
mass times the squared Euclidean norm (the sum of squared components)
of the velocity. -/
theorem kinetic_energy_is_half_mass_norm_sq {n : ℕ} (m : ℚ) (v : Vec n) :
    kinetic_energy m v = 1 / 2 * m * ∑ i, v i ^ 2 := by
  unfold kinetic_energy gsl_blas_ddot
  have h : ∑ i, v i * v i = ∑ i, v i ^ 2 :=
    Finset.sum_congr rfl fun i _ => (pow_two (v i)).symm
  rw [h]
  norm_num

/-- C7: the integration step returns a failure result (and does not
update state) whenever `dt ≤ 0` or some particle has non-positive
mass (settled against the spec-modelled `dyn_system_step`, the
implementation being absent from `src`). -/
theorem dyn_system_step_rejects_nonpositive_dt_or_mass
    (aF : Vec 3 → Vec 3)
    (odeSolver : (Vec 3 → Vec 3) → Vec 3 × Vec 3 → ℚ → Vec 3 × Vec 3)
    (sys : dyn_system_t) (dt : ℚ) (integ : dyn_integrator_t)
    (h : dt ≤ 0 ∨ ∃ p ∈ sys.particles, p.mass ≤ 0) :
    dyn_system_step aF odeSolver sys dt integ = .error .InvalidArgument := by
  unfold dyn_system_step
  rcases h with hdt | ⟨p, hp, hm⟩
  · simp [hdt]
  · have hany : sys.particles.any (fun q => decide (q.mass ≤ 0)) = true := by
      rw [List.any_eq_true]
      exact ⟨p, hp, by simpa using hm⟩
    by_cases hdt : dt ≤ 0
    · simp [hdt]
    · simp [hdt, hany]

/-- Witness for C7: a one-particle system with mass `-1` is rejected at
`dt = 1` under the Euler integrator. -/
theorem dyn_system_step_rejects_witness :
    dyn_system_step (fun _ => vec_zero 3) (fun _ s _ => s)
      ⟨[⟨-1, vec_zero 3, vec_zero 3, vec_zero 3, false⟩], 0, 0, 0⟩ 1
      .DYN_INT_EULER = .error .InvalidArgument :=
  dyn_system_step_rejects_nonpositive_dt_or_mass _ _ _ _ _
    (Or.inr ⟨⟨-1, vec_zero 3, vec_zero 3, vec_zero 3, false⟩,
      List.mem_singleton.mpr rfl, neg_nonpos.mpr zero_le_one⟩)

/-- The two-body example scenario of §8: particle 1 at the origin,
particle 2 at `(1,0,0)`, so with `G = 1` and unit masses each
acceleration has magnitude `1` along the x-axis toward the partner. -/
def twoBody_pos1 : Vec 3 := fun _ => 0

/-- Position of the second particle in the two-body scenario. -/
def twoBody_pos2 : Vec 3 := fun i => if i = 0 then 1 else 0

/-- Acceleration of particle 1 in the two-body scenario (`+x`). -/
def twoBody_acc1 : Vec 3 := fun i => if i = 0 then 1 else 0

/-- Acceleration of particle 2 in the two-body scenario (`-x`). -/
def twoBody_acc2 : Vec 3 := fun i => if i = 0 then -1 else 0

/-- C8: the claim states that in the two-body scenario a single Verlet
step with `dt = 1/100` moves each particle toward its partner by
exactly `0.5·dt² = 5·10⁻⁵` (that is, `5/100000`).  The code instead
moves each particle by `0.5·dt³ = 1/2000000 = 5·10⁻⁷` (the `dt³`
position bug of C1): particle 1 ends at x-coordinate `1/2000000` and
particle 2 at `1 - 1/2000000`, and `1/2000000 ≠ 5/100000`. -/
theorem two_body_verlet_step_displacement_bug :
    (verlet_step twoBody_pos1 (vec_zero 3) twoBody_acc1 (1 / 100)).1 0 = 1 / 2000000 ∧
    (verlet_step twoBody_pos2 (vec_zero 3) twoBody_acc2 (1 / 100)).1 0 = 1 - 1 / 2000000 ∧
    (1 / 2000000 : ℚ) ≠ 5 / 100000 := by
  refine ⟨?_, ?_, by norm_num⟩ <;>
    norm_num [verlet_step, gsl_vector_scale, gsl_vector_add, twoBody_pos1, twoBody_pos2,
      twoBody_acc1, twoBody_acc2, vec_zero]

/-- C9: `momentum` and `compute_force` compute the same function: on
mass `m` and vector `v` both return the componentwise product `m·v`. -/
theorem momentum_and_compute_force_coincide {n : ℕ} (m : ℚ) (v : Vec n) :
    momentum m v = compute_force m v ∧ momentum m v = fun i => m * v i :=
  ⟨rfl, funext fun i => mul_comm (v i) m⟩

/-- C10: for nonzero mass, `compute_acceleration` inverts
`compute_force`: `a ↦ F = m·a ↦ F/m` round-trips to `a`. -/
theorem force_acceleration_roundtrip {n : ℕ} (m : ℚ) (hm : m ≠ 0) (a : Vec n) :
    compute_acceleration (compute_force m a) m = a := by
  funext i
  simp only [compute_acceleration, compute_force, gsl_vector_scale]
  field_simp

/-- Witness for C10: the round-trip at mass `2` on the constant vector
`(3)` in one dimension. -/
theorem force_acceleration_roundtrip_witness :
    compute_acceleration (compute_force (n := 1) 2 (fun _ => 3)) 2 = (fun _ => 3) :=
  force_acceleration_roundtrip 2 two_ne_zero (fun _ => 3)

end Holos
